import Mathlib

set_option maxRecDepth 8000

deriving instance DecidableEq for Except

/-!
A shallow embedding of the semantic-search subsystem of this repository
(`src/semantic_search.py`, class `SemanticClauseSearch`), together with
theorems settling the specification claims about it.

Modelling conventions:
- Embedding vectors carry components in an arbitrary linearly ordered
  commutative ring `α` (float32 values embed into `ℚ`, which is an
  instance; concrete witnesses use `ℤ` so that the kernel can evaluate).
- The sentence-transformer model is an injected function; a batch call
  `model.encode(texts)` is a single fallible call
  `encode : List String → Except E (List (List α))`.
- The FAISS `IndexFlatL2` object is modelled by the list of vectors it
  holds (`Option (List (List α))`, `none` standing for Python `None`).
  `IndexFlatL2.search` performs exact squared-L2 search; for a query it
  returns exactly `k` (label, distance) pairs, the `min(k, ntotal)`
  nearest in ascending distance order followed by padding pairs with
  label `-1` and distance `FLT_MAX`; it rejects `k <= 0` (FAISS throws
  on `k <= 0`, and the numpy wrapper cannot allocate a `(n, k)` result
  array for negative `k`).
- The filesystem artifacts written by `save_index` / read by
  `load_index` (the `{path}.faiss` file and the `{path}_metadata.pkl`
  pickle) are modelled as optional values; `none` is a missing file and
  reading a missing file is the error the Python call would raise.
- Python exceptions become `Except` / `Option` error results.  Methods
  that mutate `self` before raising return the mutated state alongside
  the error (`Option err × SearchState α`), mirroring the fact that a
  Python exception does not roll back earlier field assignments.
-/

/-- Characters of a string lower-cased; models Python `str.lower()` on
the character sequence (`'not found' in text.lower()` in the source). -/
def lowerChars (s : String) : List Char :=
  s.data.map Char.toLower

/-- `charsStartWith needle hay`: `hay` begins with `needle`. -/
def charsStartWith : List Char → List Char → Bool
  | [], _ => true
  | _ :: _, [] => false
  | c :: cs, d :: ds => c == d && charsStartWith cs ds

/-- `charsContain needle hay`: `needle` occurs as a contiguous substring
of `hay`; models Python `needle in hay` on strings. -/
def charsContain (needle : List Char) : List Char → Bool
  | [] => charsStartWith needle []
  | c :: cs => charsStartWith needle (c :: cs) || charsContain needle cs

/-- The gate applied to each clause field in `build_index`
(`if result[field] and 'not found' not in result[field].lower()`):
the text is non-empty (Python truthiness of a string) and does not
contain the sentinel substring `"not found"` case-insensitively. -/
def clauseOk (t : String) : Bool :=
  !(t == "") && !(charsContain "not found".data (lowerChars t))

/-- One upstream analysis record: `contract_id` plus the three clause
fields consumed by `build_index`. -/
structure AnalysisResult where
  contract_id : String
  termination_clause : String
  confidentiality_clause : String
  liability_clause : String
deriving DecidableEq

/-- One metadata dictionary stored in `self.metadata`
(`{'contract_id': ..., 'clause_type': ..., 'text': ...}`). -/
structure ClauseMeta where
  contract_id : String
  clause_type : String
  text : String
deriving DecidableEq, Inhabited

/-- The clause texts contributed by one record to `all_clauses`, in the
source order: termination, confidentiality, liability. -/
def recordClauseTexts (r : AnalysisResult) : List String :=
  (if clauseOk r.termination_clause then [r.termination_clause] else [])
    ++ (if clauseOk r.confidentiality_clause then [r.confidentiality_clause] else [])
    ++ (if clauseOk r.liability_clause then [r.liability_clause] else [])

/-- The metadata dictionaries contributed by one record to
`all_metadata`, parallel to `recordClauseTexts`. -/
def recordClauseMetas (r : AnalysisResult) : List ClauseMeta :=
  (if clauseOk r.termination_clause then
      [⟨r.contract_id, "termination", r.termination_clause⟩] else [])
    ++ (if clauseOk r.confidentiality_clause then
      [⟨r.contract_id, "confidentiality", r.confidentiality_clause⟩] else [])
    ++ (if clauseOk r.liability_clause then
      [⟨r.contract_id, "liability", r.liability_clause⟩] else [])

/-- The `all_clauses` list accumulated by the loop in `build_index`. -/
def allClauses (analysis_results : List AnalysisResult) : List String :=
  analysis_results.flatMap recordClauseTexts

/-- The `all_metadata` list accumulated by the loop in `build_index`. -/
def allMetadata (analysis_results : List AnalysisResult) : List ClauseMeta :=
  analysis_results.flatMap recordClauseMetas

/-- The mutable fields of a `SemanticClauseSearch` object:
`self.index` (the FAISS index, `None` until built), `self.clauses`, and
`self.metadata`. -/
structure SearchState (α : Type) where
  index : Option (List (List α))
  clauses : List String
  metadata : List ClauseMeta
deriving DecidableEq

/-- The state right after `__init__`: no index, empty lists. -/
def freshState (α : Type) : SearchState α :=
  ⟨none, [], []⟩

/-- Squared Euclidean L2 distance between two vectors, the metric of
FAISS `IndexFlatL2` (which returns squared distances). -/
def sqDist {α : Type} [LinearOrderedCommRing α] (q v : List α) : α :=
  ((q.zip v).map (fun p => (p.1 - p.2) * (p.1 - p.2))).sum

/-- The padding distance FAISS uses for missing L2 results:
`FLT_MAX = 2^128 - 2^104`. -/
def floatMax {α : Type} [LinearOrderedCommRing α] : α :=
  2 ^ (128 : ℕ) - 2 ^ (104 : ℕ)

/-- `IndexFlatL2.search` for one query row and `k ≥ 1`: exact scan of
all stored vectors, the `min(k, ntotal)` nearest (label, squared
distance) pairs in ascending distance order, padded to exactly `k`
pairs with label `-1` and distance `FLT_MAX`. -/
def faissFlatSearch {α : Type} [LinearOrderedCommRing α]
    (vecs : List (List α)) (q : List α) (k : ℕ) : List (ℤ × α) :=
  let scored := vecs.enum.map (fun p => ((p.1 : ℤ), sqDist q p.2))
  let sorted := List.insertionSort (fun a b => a.2 ≤ b.2) scored
  sorted.take k ++ List.replicate (k - vecs.length) ((-1 : ℤ), floatMax)

/-- Python list indexing `l[i]` for `int` `i`: non-negative indices from
the front, negative indices from the back, `none` when out of range
(where Python raises `IndexError`). -/
def pyGet {β : Type} (l : List β) (i : ℤ) : Option β :=
  if 0 ≤ i then l[i.toNat]?
  else if (-i).toNat ≤ l.length then l[l.length - (-i).toNat]?
  else none

/-- The ways `search` can raise: `ValueError` for an unbuilt index, an
embedding-service failure, the backend's rejection of `k <= 0`, and a
Python `IndexError` from `self.metadata[idx]`. -/
inductive SearchIssue (E : Type) where
  | indexNotBuilt : SearchIssue E
  | embedFail (e : E) : SearchIssue E
  | invalidK : SearchIssue E
  | indexErr : SearchIssue E
deriving DecidableEq

/-- The result-collection loop of `search`:
`for idx, dist in zip(indices[0], distances[0]): if idx < len(self.metadata): results.append((self.metadata[idx], float(dist)))`.
The guard only bounds `idx` from above; `self.metadata[idx]` then uses
Python indexing semantics (negative indices wrap from the back). -/
def gatherResults {α E : Type} (md : List ClauseMeta) :
    List (ℤ × α) → Except (SearchIssue E) (List (ClauseMeta × α))
  | [] => .ok []
  | (i, d) :: rest =>
    if i < (md.length : ℤ) then
      match pyGet md i with
      | some m =>
        match gatherResults md rest with
        | .ok r => .ok ((m, d) :: r)
        | .error e => .error e
      | none => .error .indexErr
    else gatherResults md rest

/-- `faiss.write_index(self.index, ...)` raises when `self.index` is
`None`. -/
inductive SaveErr where
  | indexIsNone : SaveErr
deriving DecidableEq

/-- `load_index` failures: `faiss.read_index` on a missing `.faiss`
file, or `open(f"{path}_metadata.pkl", 'rb')` on a missing pickle. -/
inductive LoadErr where
  | faissFileMissing : LoadErr
  | pklFileMissing : LoadErr
deriving DecidableEq

/-- The two on-disk artifacts sharing a base path: the `.faiss` file
(raw vectors of the flat index) and the `_metadata.pkl` pickle holding
`{'clauses': ..., 'metadata': ...}`; `none` is a missing file. -/
structure Artifacts (α : Type) where
  faissFile : Option (List (List α))
  metadataPkl : Option (List String × List ClauseMeta)
deriving DecidableEq

namespace SemanticClauseSearch

/-- `build_index(self, analysis_results)`: collect the clause texts and
metadata that pass `clauseOk` in input order; if none remain, print a
warning and return with `self` untouched; otherwise assign
`self.clauses` and `self.metadata`, then call `model.encode` on the
batch, and on success replace `self.index` with a fresh flat index
holding the embeddings.  An embedding failure propagates after the
payload assignments have already happened. -/
def build_index {α E : Type}
    (encode : List String → Except E (List (List α)))
    (s : SearchState α) (analysis_results : List AnalysisResult) :
    Option E × SearchState α :=
  let all_clauses := allClauses analysis_results
  let all_metadata := allMetadata analysis_results
  if all_clauses.isEmpty then (none, s)
  else
    let s1 : SearchState α := { s with clauses := all_clauses, metadata := all_metadata }
    match encode all_clauses with
    | .error e => (some e, s1)
    | .ok embeddings => (none, { s1 with index := some embeddings })

/-- `search(self, query, top_k)`: raise `ValueError` if `self.index` is
`None`; embed `[query]`; run the FAISS search (which rejects
`top_k <= 0`); then collect `(metadata, distance)` pairs with the
`idx < len(self.metadata)` guard. -/
def search {α E : Type} [LinearOrderedCommRing α]
    (encode : List String → Except E (List (List α)))
    (s : SearchState α) (query : String) (top_k : ℤ) :
    Except (SearchIssue E) (List (ClauseMeta × α)) :=
  match s.index with
  | none => .error .indexNotBuilt
  | some vecs =>
    match encode [query] with
    | .error e => .error (.embedFail e)
    | .ok qrows =>
      if top_k ≤ 0 then .error .invalidK
      else gatherResults s.metadata (faissFlatSearch vecs (qrows.headD []) top_k.toNat)

/-- `save_index(self, path)`: write the FAISS index (raises if
`self.index` is `None`) and pickle `{'clauses': ..., 'metadata': ...}`;
modelled as producing the pair of artifacts. -/
def save_index {α : Type} (s : SearchState α) : Except SaveErr (Artifacts α) :=
  match s.index with
  | none => .error .indexIsNone
  | some vecs => .ok ⟨some vecs, some (s.clauses, s.metadata)⟩

/-- `load_index(self, path)`: `self.index = faiss.read_index(...)` then
unpickle `self.clauses` and `self.metadata`.  A missing `.faiss` file
fails before any assignment; a missing pickle fails after `self.index`
has already been reassigned. -/
def load_index {α : Type} (s : SearchState α) (a : Artifacts α) :
    Option LoadErr × SearchState α :=
  match a.faissFile with
  | none => (some .faissFileMissing, s)
  | some vecs =>
    match a.metadataPkl with
    | none => (some .pklFileMissing, { s with index := some vecs })
    | some pkl => (none, ⟨some vecs, pkl.1, pkl.2⟩)

end SemanticClauseSearch

/-- A total embedding service: one vector per input text, in order, no
failures (the nominal behaviour of `model.encode`). -/
def pureEncode {α E : Type} (embedOne : String → List α) :
    List String → Except E (List (List α)) :=
  fun ts => .ok (ts.map embedOne)

/-- All candidate clause entries of a record, one per clause field, in
the source's field order, before any filtering (spec-side view used to
state the filtering claim). -/
def entriesAll (r : AnalysisResult) : List ClauseMeta :=
  [⟨r.contract_id, "termination", r.termination_clause⟩,
   ⟨r.contract_id, "confidentiality", r.confidentiality_clause⟩,
   ⟨r.contract_id, "liability", r.liability_clause⟩]

/-- Spec wording of the filter: text non-empty and not case-insensitively
containing the substring `"not found"`. -/
def keepEntry (m : ClauseMeta) : Bool :=
  m.text != "" && !(charsContain "not found".data (lowerChars m.text))

/-- The pairing invariant of the spec: the number of stored vectors
equals the number of stored payloads (an unbuilt index stores zero
vectors), and the vector at position `i` is the embedding of the text
of the payload at position `i`. -/
def pairedInvariant {α : Type} (embedOne : String → List α) (s : SearchState α) : Prop :=
  (s.index.getD []).length = s.metadata.length ∧
  ∀ i : ℕ, (s.index.getD [])[i]? = (s.metadata[i]?).map (fun m => embedOne m.text)

/-- States reachable through successful operations: the fresh state,
any `build_index` with a functioning embedding service, and any
`load_index` of an artifact pair written by `save_index` from a
reachable state.  `search` and `save_index` never assign fields of
`self`, so they preserve every state property trivially. -/
inductive ReachableVia {α : Type} (embedOne : String → List α) : SearchState α → Prop where
  | fresh : ReachableVia embedOne (freshState α)
  | buildStep (s : SearchState α) (rs : List AnalysisResult) :
      ReachableVia embedOne s →
      ReachableVia embedOne
        ((SemanticClauseSearch.build_index (E := Unit) (pureEncode embedOne) s rs).2)
  | loadStep (src dst : SearchState α) (art : Artifacts α) :
      ReachableVia embedOne src → ReachableVia embedOne dst →
      SemanticClauseSearch.save_index src = .ok art →
      ReachableVia embedOne ((SemanticClauseSearch.load_index dst art).2)

/-! ## Helper lemmas -/

theorem recordClauseTexts_eq (r : AnalysisResult) :
    recordClauseTexts r = (recordClauseMetas r).map ClauseMeta.text := by
  unfold recordClauseTexts recordClauseMetas
  split_ifs <;> simp

theorem allClauses_eq (rs : List AnalysisResult) :
    allClauses rs = (allMetadata rs).map ClauseMeta.text := by
  unfold allClauses allMetadata
  induction rs with
  | nil => rfl
  | cons r rs ih => simp [List.flatMap_cons, ih, recordClauseTexts_eq]

theorem keepEntry_mk (cid ct t : String) :
    keepEntry ⟨cid, ct, t⟩ = clauseOk t := rfl

theorem recordClauseMetas_filter (r : AnalysisResult) :
    recordClauseMetas r = (entriesAll r).filter keepEntry := by
  unfold recordClauseMetas entriesAll
  simp only [List.filter_cons, List.filter_nil, keepEntry_mk]
  split_ifs <;> simp_all

theorem allMetadata_filter (rs : List AnalysisResult) :
    allMetadata rs = (rs.flatMap entriesAll).filter keepEntry := by
  unfold allMetadata
  induction rs with
  | nil => rfl
  | cons r rs ih =>
    simp [List.flatMap_cons, List.filter_append, ih, recordClauseMetas_filter]

theorem gatherResults_append {α E : Type} (md : List ClauseMeta)
    (l₁ l₂ : List (ℤ × α)) (r₁ r₂ : List (ClauseMeta × α))
    (h₁ : gatherResults (E := E) md l₁ = .ok r₁)
    (h₂ : gatherResults (E := E) md l₂ = .ok r₂) :
    gatherResults (E := E) md (l₁ ++ l₂) = .ok (r₁ ++ r₂) := by
  induction l₁ generalizing r₁ with
  | nil =>
    simp only [gatherResults] at h₁
    cases h₁
    simpa using h₂
  | cons p l ih =>
    obtain ⟨i, d⟩ := p
    by_cases hg : i < (md.length : ℤ)
    · simp only [gatherResults, List.cons_append, if_pos hg] at h₁ ⊢
      cases hpg : pyGet md i with
      | none => simp [hpg] at h₁
      | some m =>
        simp only [hpg] at h₁ ⊢
        cases hr : gatherResults (E := E) md l with
        | error e => simp [hr] at h₁
        | ok r =>
          rw [hr] at h₁
          cases h₁
          rw [List.append_eq, ih r hr]
          rfl
    · simp only [gatherResults, List.cons_append, if_neg hg] at h₁ ⊢
      exact ih r₁ h₁

theorem gatherResults_bounded {α E : Type} (md : List ClauseMeta)
    (l : List (ℤ × α))
    (h : ∀ p ∈ l, 0 ≤ p.1 ∧ p.1 < (md.length : ℤ)) :
    gatherResults (E := E) md l
      = .ok (l.map (fun p => (md.getD p.1.toNat default, p.2))) := by
  induction l with
  | nil => rfl
  | cons p l ih =>
    obtain ⟨i, d⟩ := p
    obtain ⟨h0, hlt⟩ := h (i, d) (by simp)
    have hb : i.toNat < md.length := by omega
    have hpg : pyGet md i = some (md.getD i.toNat default) := by
      unfold pyGet
      rw [if_pos h0, List.getD_eq_getElem?_getD, List.getElem?_eq_getElem hb]
      rfl
    have hrest := ih (fun p hp => h p (by simp [hp]))
    simp [gatherResults, hlt, hpg, hrest]

theorem gatherResults_pad {α E : Type} (md : List ClauseMeta) (hne : md ≠ [])
    (c : ℕ) (x : α) :
    gatherResults (E := E) md (List.replicate c ((-1 : ℤ), x))
      = .ok (List.replicate c (md.getLast?.getD default, x)) := by
  have hlen : 0 < md.length := List.length_pos.mpr hne
  have hpg : pyGet md (-1) = md.getLast? := by
    unfold pyGet
    rw [if_neg (by decide), if_pos (by simpa using hlen),
      List.getLast?_eq_getElem?]
    norm_num
  obtain ⟨m, hm⟩ : ∃ m, md.getLast? = some m := by
    cases hq : md.getLast? with
    | none => exact absurd (List.getLast?_eq_none_iff.mp hq) hne
    | some m => exact ⟨m, rfl⟩
  induction c with
  | zero => rfl
  | succ n ih =>
    have hg : (-1 : ℤ) < (md.length : ℤ) := by omega
    simp only [List.replicate_succ, gatherResults, if_pos hg, hpg, hm, ih]
    simp [hm]

theorem mem_sorted_scored {α : Type} [LinearOrderedCommRing α]
    (vecs : List (List α)) (q : List α) (p : ℤ × α)
    (hp : p ∈ List.insertionSort (fun a b : ℤ × α => a.2 ≤ b.2)
      (vecs.enum.map (fun pr => ((pr.1 : ℤ), sqDist q pr.2)))) :
    0 ≤ p.1 ∧ p.1 < (vecs.length : ℤ) := by
  have hmem := (List.perm_insertionSort
    (fun a b : ℤ × α => a.2 ≤ b.2) _).mem_iff.mp hp
  obtain ⟨⟨i, v⟩, hin, rfl⟩ := List.mem_map.mp hmem
  have : i ∈ List.range vecs.length :=
    (List.of_mem_zip (by simpa [List.enum_eq_zip_range] using hin)).1
  have hi : i < vecs.length := List.mem_range.mp this
  constructor
  · show (0 : ℤ) ≤ (i : ℤ)
    exact_mod_cast Nat.zero_le i
  · show (i : ℤ) < (vecs.length : ℤ)
    exact_mod_cast hi

/-! ## Claim theorems -/

theorem build_metadata_eq {α E : Type} (encode : List String → Except E (List (List α)))
    (s : SearchState α) (rs : List AnalysisResult) :
    (SemanticClauseSearch.build_index encode (freshState α) rs).2.metadata
      = allMetadata rs ∧
    (SemanticClauseSearch.build_index encode s rs).1
      = (if (allClauses rs).isEmpty then none
         else match encode (allClauses rs) with
              | .error e => some e
              | .ok _ => none) := by
  constructor
  · by_cases he : (allClauses rs).isEmpty
    · have hmd : allMetadata rs = [] := by
        have := allClauses_eq rs
        rw [List.isEmpty_iff] at he
        rw [he] at this
        exact (List.map_eq_nil_iff.mp this.symm)
      simp [SemanticClauseSearch.build_index, he, freshState, hmd]
    · simp only [SemanticClauseSearch.build_index, if_neg he]
      cases encode (allClauses rs) <;> rfl
  · by_cases he : (allClauses rs).isEmpty
    · simp [SemanticClauseSearch.build_index, he]
    · simp only [SemanticClauseSearch.build_index, if_neg he]
      cases encode (allClauses rs) <;> rfl

/-- Claim C2: building from a sequence of analysis records indexes
exactly those clause entries whose text is non-empty and does not
case-insensitively contain the substring `"not found"`, in input order
(per record: termination, confidentiality, liability); in particular,
building from three records carrying the texts `"Not found in
contract"`, `""` and `"Valid clause text"` leaves exactly 1 entry in
the index. -/
theorem build_filters_entries {α E : Type} (embedOne : String → List α) :
    (∀ rs : List AnalysisResult,
      (SemanticClauseSearch.build_index (E := E) (pureEncode embedOne)
          (freshState α) rs).2.metadata
        = (rs.flatMap entriesAll).filter keepEntry) ∧
    (SemanticClauseSearch.build_index (E := E) (pureEncode embedOne) (freshState α)
        [⟨"c1", "Not found in contract", "Not found in contract", "Not found in contract"⟩,
         ⟨"c2", "", "", ""⟩,
         ⟨"c3", "Valid clause text", "Not found in contract", "Not found in contract"⟩]
      ).2.metadata.length = 1 := by
  have key : ∀ rs : List AnalysisResult,
      (SemanticClauseSearch.build_index (E := E) (pureEncode embedOne)
          (freshState α) rs).2.metadata
        = (rs.flatMap entriesAll).filter keepEntry := by
    intro rs
    rw [(build_metadata_eq (pureEncode embedOne) (freshState α) rs).1,
      allMetadata_filter]
  refine ⟨key, ?_⟩
  rw [key]
  decide

/-- Claim C3 counterexample: after a `build_index` call whose whole
input is filtered away (a record holding only the sentinel and an empty
string), `search` on the previously fresh engine does not return an
empty list — it raises `ValueError` (index not built), because the
filtered-away build returned early without creating an index. -/
theorem search_after_filtered_build_errs :
    SemanticClauseSearch.search (E := Unit) (pureEncode (fun _ => [(0 : ℤ)]))
      (SemanticClauseSearch.build_index (E := Unit) (pureEncode (fun _ => [(0 : ℤ)]))
        (freshState ℤ)
        [⟨"c1", "Not found in contract", "", "Not found in contract"⟩]).2
      "any query" 5 = .error .indexNotBuilt := by
  decide

/-- Claim C3 (amended): `search` on a freshly constructed engine fails
with the index-not-built error; and a `build_index` call whose input is
entirely filtered away returns early leaving the state unchanged — so
`search` after such a build behaves exactly as before it (on a fresh
engine it still fails with index-not-built rather than returning an
empty sequence). -/
theorem fresh_search_errs_and_filtered_build_noop {α E : Type} [LinearOrderedCommRing α] :
    (∀ (encode : List String → Except E (List (List α))) (query : String) (k : ℤ),
      SemanticClauseSearch.search encode (freshState α) query k
        = .error .indexNotBuilt) ∧
    (∀ (encode : List String → Except E (List (List α))) (s : SearchState α)
        (rs : List AnalysisResult), allClauses rs = [] →
      SemanticClauseSearch.build_index encode s rs = (none, s)) := by
  constructor
  · intro encode query k
    rfl
  · intro encode s rs h
    simp [SemanticClauseSearch.build_index, h]

/-- Claim C3 witness: the two parts of the amended claim at concrete
inputs. -/
theorem fresh_search_errs_and_filtered_build_noop_witness :
    SemanticClauseSearch.search (E := Unit) (pureEncode (fun _ => [(0 : ℤ)]))
      (freshState ℤ) "q" 5 = .error .indexNotBuilt ∧
    SemanticClauseSearch.build_index (E := Unit) (pureEncode (fun _ => [(0 : ℤ)]))
      (freshState ℤ) [⟨"c", "Not found in contract", "", ""⟩]
      = (none, freshState ℤ) :=
  ⟨(fresh_search_errs_and_filtered_build_noop (α := ℤ) (E := Unit)).1 _ "q" 5,
   (fresh_search_errs_and_filtered_build_noop (α := ℤ) (E := Unit)).2 _ _ _ (by decide)⟩

/-- Claim C9 counterexample: on a built index, `search` with `k = -1`
does not return an empty sequence; the call fails (the nearest-neighbor
backend rejects non-positive `k`: negative `k` cannot shape the numpy
result arrays and FAISS throws on `k <= 0`). -/
theorem nonpositive_k_raises :
    SemanticClauseSearch.search (E := Unit) (pureEncode (fun _ => [(0 : ℤ)]))
      (⟨some [[0]], ["t"], [⟨"c", "termination", "t"⟩]⟩ : SearchState ℤ) "q" (-1)
      = .error .invalidK := by
  decide

/-- Claim C9 (amended): for every built index and query, `search` with
`k <= 0` fails with the backend's invalid-`k` error instead of
returning an empty sequence. -/
theorem search_nonpositive_k_invalid {α E : Type} [LinearOrderedCommRing α]
    (encode : List String → Except E (List (List α))) (s : SearchState α)
    (vecs : List (List α)) (hidx : s.index = some vecs)
    (query : String) (rows : List (List α)) (henc : encode [query] = .ok rows)
    (k : ℤ) (hk : k ≤ 0) :
    SemanticClauseSearch.search encode s query k = .error .invalidK := by
  simp [SemanticClauseSearch.search, hidx, henc, hk]

/-- Claim C9 witness: the amended claim at a concrete built index and
`k = 0`. -/
theorem search_nonpositive_k_invalid_witness :
    SemanticClauseSearch.search (E := Unit) (pureEncode (fun _ => [(0 : ℤ)]))
      (⟨some [[0]], ["t"], [⟨"c", "termination", "t"⟩]⟩ : SearchState ℤ) "q" 0
      = .error .invalidK :=
  search_nonpositive_k_invalid (pureEncode (fun _ => [(0 : ℤ)]))
    ⟨some [[0]], ["t"], [⟨"c", "termination", "t"⟩]⟩ [[0]] rfl "q" [[0]] rfl 0
    (by decide)

/-- Claim C4: `save_index` followed by `load_index` into a fresh engine
reproduces the saved contents exactly, so every subsequent `search`
returns the same ordered payload-distance pairs as on the original
index (distances are reproduced exactly, which is within any
floating-point tolerance). -/
theorem save_load_roundtrip {α E : Type} [LinearOrderedCommRing α]
    (s : SearchState α) (art : Artifacts α)
    (hsave : SemanticClauseSearch.save_index s = .ok art) :
    (SemanticClauseSearch.load_index (freshState α) art).1 = none ∧
    ∀ (encode : List String → Except E (List (List α))) (query : String) (k : ℤ),
      SemanticClauseSearch.search encode
          (SemanticClauseSearch.load_index (freshState α) art).2 query k
        = SemanticClauseSearch.search encode s query k := by
  obtain ⟨idx, cls, md⟩ := s
  cases idx with
  | none => simp [SemanticClauseSearch.save_index] at hsave
  | some vecs =>
    have hart : art = ⟨some vecs, some (cls, md)⟩ := by
      simpa [SemanticClauseSearch.save_index] using hsave.symm
    subst hart
    exact ⟨rfl, fun _ _ _ => rfl⟩

/-- Claim C4 witness: round trip of a concrete one-entry index,
compared on a concrete query. -/
theorem save_load_roundtrip_witness :
    (SemanticClauseSearch.load_index (freshState ℤ)
        ⟨some [[2]], some (["t"], [⟨"c", "termination", "t"⟩])⟩).1 = none ∧
    SemanticClauseSearch.search (E := Unit) (pureEncode (fun _ => [(1 : ℤ)]))
        (SemanticClauseSearch.load_index (freshState ℤ)
          ⟨some [[2]], some (["t"], [⟨"c", "termination", "t"⟩])⟩).2 "q" 3
      = SemanticClauseSearch.search (E := Unit) (pureEncode (fun _ => [(1 : ℤ)]))
        (⟨some [[2]], ["t"], [⟨"c", "termination", "t"⟩]⟩ : SearchState ℤ) "q" 3 :=
  ⟨(save_load_roundtrip (E := Unit)
      ⟨some [[2]], ["t"], [⟨"c", "termination", "t"⟩]⟩ _ rfl).1,
   (save_load_roundtrip
      ⟨some [[2]], ["t"], [⟨"c", "termination", "t"⟩]⟩ _ rfl).2
      (pureEncode (fun _ => [(1 : ℤ)])) "q" 3⟩

/-- Claim C6 counterexample: loading an artifact pair whose vector count
(1) and payload count (2) disagree does not fail with any error — the
code performs no consistency check, and the resulting in-memory state
holds 1 vector against 2 payloads. -/
theorem mismatched_load_no_error :
    SemanticClauseSearch.load_index (freshState ℤ)
        ⟨some [[0]], some (["a", "b"],
          [⟨"c1", "termination", "a"⟩, ⟨"c2", "liability", "b"⟩])⟩
      = (none, ⟨some [[0]], ["a", "b"],
          [⟨"c1", "termination", "a"⟩, ⟨"c2", "liability", "b"⟩]⟩) ∧
    (1 : ℕ) ≠ 2 := by
  decide

/-- Claim C6 (amended): `load_index` requires both artifacts to be
present — a missing vector file or a missing payload pickle makes the
call fail — and a load with both artifacts present always succeeds,
replacing the engine's entire contents with the artifact contents (it
is not a merge); no count-consistency check is performed. -/
theorem load_artifact_requirements {α : Type} (s : SearchState α) (a : Artifacts α) :
    (a.faissFile = none →
      SemanticClauseSearch.load_index s a = (some .faissFileMissing, s)) ∧
    (∀ vecs, a.faissFile = some vecs → a.metadataPkl = none →
      (SemanticClauseSearch.load_index s a).1 = some .pklFileMissing) ∧
    (∀ vecs cls md, a.faissFile = some vecs → a.metadataPkl = some (cls, md) →
      SemanticClauseSearch.load_index s a = (none, ⟨some vecs, cls, md⟩)) := by
  refine ⟨fun h => ?_, fun vecs h1 h2 => ?_, fun vecs cls md h1 h2 => ?_⟩
  · simp [SemanticClauseSearch.load_index, h]
  · simp [SemanticClauseSearch.load_index, h1, h2]
  · simp [SemanticClauseSearch.load_index, h1, h2]

/-- Claim C6 witness: the three load outcomes at concrete artifacts. -/
theorem load_artifact_requirements_witness :
    SemanticClauseSearch.load_index (freshState ℤ) ⟨none, none⟩
      = (some .faissFileMissing, freshState ℤ) ∧
    (SemanticClauseSearch.load_index (freshState ℤ) ⟨some [[1]], none⟩).1
      = some .pklFileMissing ∧
    SemanticClauseSearch.load_index (freshState ℤ)
        ⟨some [[1]], some (["t"], [⟨"c", "termination", "t"⟩])⟩
      = (none, ⟨some [[1]], ["t"], [⟨"c", "termination", "t"⟩]⟩) :=
  ⟨(load_artifact_requirements (freshState ℤ) ⟨none, none⟩).1 rfl,
   (load_artifact_requirements (freshState ℤ) ⟨some [[1]], none⟩).2.1 [[1]] rfl rfl,
   (load_artifact_requirements (freshState ℤ) _).2.2 [[1]] _ _ rfl rfl⟩

/-- Claim C7 counterexample: a `load_index` call that fails because the
payload pickle is missing has already overwritten `self.index` with the
newly read vector file — the previous in-memory state is not left
unchanged. -/
theorem failed_load_mutates_index :
    SemanticClauseSearch.load_index
        (⟨some [[5]], ["t"], [⟨"c", "termination", "t"⟩]⟩ : SearchState ℤ)
        ⟨some [[7]], none⟩
      = (some .pklFileMissing,
         ⟨some [[7]], ["t"], [⟨"c", "termination", "t"⟩]⟩) ∧
    (⟨some [[7]], ["t"], [⟨"c", "termination", "t"⟩]⟩ : SearchState ℤ)
      ≠ ⟨some [[5]], ["t"], [⟨"c", "termination", "t"⟩]⟩ := by
  decide

/-- Claim C7 (amended): when `load_index` fails because the vector file
is missing, the previous state is left entirely unchanged; when it
fails because the payload pickle is missing, `self.index` has already
been replaced by the vectors read from disk while `self.clauses` and
`self.metadata` keep their previous values. -/
theorem failed_load_state_behavior {α : Type} (s : SearchState α) (a : Artifacts α) :
    (a.faissFile = none →
      SemanticClauseSearch.load_index s a = (some .faissFileMissing, s)) ∧
    (∀ vecs, a.faissFile = some vecs → a.metadataPkl = none →
      SemanticClauseSearch.load_index s a
        = (some .pklFileMissing, { s with index := some vecs })) := by
  refine ⟨fun h => ?_, fun vecs h1 h2 => ?_⟩
  · simp [SemanticClauseSearch.load_index, h]
  · simp [SemanticClauseSearch.load_index, h1, h2]

/-- Claim C7 witness: the two failing-load outcomes at concrete
inputs. -/
theorem failed_load_state_behavior_witness :
    SemanticClauseSearch.load_index
        (⟨some [[5]], ["t"], [⟨"c", "termination", "t"⟩]⟩ : SearchState ℤ)
        ⟨none, some (["u"], [⟨"d", "liability", "u"⟩])⟩
      = (some .faissFileMissing, ⟨some [[5]], ["t"], [⟨"c", "termination", "t"⟩]⟩) ∧
    SemanticClauseSearch.load_index
        (⟨some [[5]], ["u"], [⟨"d", "liability", "u"⟩]⟩ : SearchState ℤ)
        ⟨some [[9]], none⟩
      = (some .pklFileMissing, ⟨some [[9]], ["u"], [⟨"d", "liability", "u"⟩]⟩) :=
  ⟨(failed_load_state_behavior _ _).1 rfl,
   (failed_load_state_behavior _ _).2 [[9]] rfl rfl⟩

/-- Claim C8 counterexample: a `build_index` call aborted by an
embedding-service failure has already replaced the payload store —
`self.clauses` and `self.metadata` hold the records of the failed call
(while no vector was added: `self.index` is unchanged), so the stored
payloads do reflect partial work of that call. -/
theorem failed_build_updates_payloads :
    SemanticClauseSearch.build_index
        ((fun _ => .error ()) : List String → Except Unit (List (List ℤ)))
        (freshState ℤ)
        [⟨"c1", "30 days notice", "Not found in contract", "Not found in contract"⟩]
      = (some (), ⟨none, ["30 days notice"], [⟨"c1", "termination", "30 days notice"⟩]⟩) ∧
    (freshState ℤ).metadata = [] := by
  decide

/-- Claim C8 (amended): an embedding-service failure during
`build_index` or `search` aborts the call and surfaces the underlying
error, and no placeholder or error vector is inserted — `self.index`
keeps exactly its previous contents — but a failed build whose filtered
batch is non-empty has already replaced `self.clauses` and
`self.metadata` with that batch before the embedding call. -/
theorem embed_failure_surfaces {α E : Type} [LinearOrderedCommRing α] :
    (∀ (encode : List String → Except E (List (List α))) (s : SearchState α)
        (rs : List AnalysisResult) (e : E),
      encode (allClauses rs) = .error e → allClauses rs ≠ [] →
      SemanticClauseSearch.build_index encode s rs
        = (some e, { s with clauses := allClauses rs, metadata := allMetadata rs })) ∧
    (∀ (encode : List String → Except E (List (List α))) (s : SearchState α)
        (vecs : List (List α)) (query : String) (k : ℤ) (e : E),
      s.index = some vecs → encode [query] = .error e →
      SemanticClauseSearch.search encode s query k = .error (.embedFail e)) := by
  constructor
  · intro encode s rs e henc hne
    have he : (allClauses rs).isEmpty = false := by
      simpa [List.isEmpty_iff] using hne
    simp [SemanticClauseSearch.build_index, he, henc]
  · intro encode s vecs query k e hidx henc
    simp [SemanticClauseSearch.search, hidx, henc]

/-- Claim C8 witness: the amended claim at a concrete failing embedder,
for both a build and a search. -/
theorem embed_failure_surfaces_witness :
    SemanticClauseSearch.build_index
        ((fun _ => .error ()) : List String → Except Unit (List (List ℤ)))
        (⟨some [[3]], ["old"], [⟨"c0", "liability", "old"⟩]⟩ : SearchState ℤ)
        [⟨"c1", "new text", "Not found in contract", "Not found in contract"⟩]
      = (some (), ⟨some [[3]], ["new text"], [⟨"c1", "termination", "new text"⟩]⟩) ∧
    SemanticClauseSearch.search
        ((fun _ => .error ()) : List String → Except Unit (List (List ℤ)))
        (⟨some [[3]], ["old"], [⟨"c0", "liability", "old"⟩]⟩ : SearchState ℤ) "q" 5
      = .error (.embedFail ()) :=
  ⟨(embed_failure_surfaces (α := ℤ) (E := Unit)).1 _ _ _ () rfl (by decide),
   (embed_failure_surfaces (α := ℤ) (E := Unit)).2 _ _ [[3]] "q" 5 () rfl rfl⟩

/-- Claim C5 counterexample: a state reached by a successful build
satisfies the pairing invariant, but running `build_index` on it with a
failing embedding service yields a state with 1 stored vector against 2
stored payloads — the operation does not preserve the invariant. -/
theorem failed_build_breaks_invariant :
    ReachableVia (fun _ => [(0 : ℤ)])
      (⟨some [[0]], ["a"], [⟨"c1", "termination", "a"⟩]⟩ : SearchState ℤ) ∧
    pairedInvariant (fun _ => [(0 : ℤ)])
      (⟨some [[0]], ["a"], [⟨"c1", "termination", "a"⟩]⟩ : SearchState ℤ) ∧
    SemanticClauseSearch.build_index
        ((fun _ => .error ()) : List String → Except Unit (List (List ℤ)))
        (⟨some [[0]], ["a"], [⟨"c1", "termination", "a"⟩]⟩ : SearchState ℤ)
        [⟨"c1", "a", "", ""⟩, ⟨"c2", "b", "", ""⟩]
      = (some (), ⟨some [[0]], ["a", "b"],
          [⟨"c1", "termination", "a"⟩, ⟨"c2", "termination", "b"⟩]⟩) ∧
    ¬ pairedInvariant (fun _ => [(0 : ℤ)])
        ⟨some [[0]], ["a", "b"],
          [⟨"c1", "termination", "a"⟩, ⟨"c2", "termination", "b"⟩]⟩ := by
  refine ⟨?_, ⟨rfl, fun i => ?_⟩, by decide, fun hinv => absurd hinv.1 (by decide)⟩
  · have hb : (⟨some [[0]], ["a"], [⟨"c1", "termination", "a"⟩]⟩ : SearchState ℤ)
        = (SemanticClauseSearch.build_index (E := Unit)
            (pureEncode (fun _ => [(0 : ℤ)])) (freshState ℤ)
            [⟨"c1", "a", "", ""⟩]).2 := by decide
    rw [hb]
    exact ReachableVia.buildStep _ _ ReachableVia.fresh
  · match i with
    | 0 => rfl
    | Nat.succ n => rfl

/-- Claim C5 (amended): the pairing invariant — as many stored vectors
as stored payloads, the vector at position `i` being the embedding of
the payload text at position `i` — holds in every state reachable
through successful operations: the fresh state, builds whose embedding
call succeeds, searches and saves (which assign no fields), and loads
of artifacts written by `save_index` from reachable states.  (A build
aborted by an embedding failure breaks the invariant, see the
counterexample.) -/
theorem reachable_invariant {α : Type} (embedOne : String → List α)
    (s : SearchState α) (h : ReachableVia embedOne s) :
    pairedInvariant embedOne s := by
  induction h with
  | fresh => exact ⟨rfl, fun i => rfl⟩
  | buildStep s rs hs ih =>
    by_cases he : (allClauses rs).isEmpty
    · simpa [SemanticClauseSearch.build_index, he] using ih
    · simp only [SemanticClauseSearch.build_index, if_neg he, pureEncode]
      constructor
      · simp [allClauses_eq]
      · intro i
        simp [allClauses_eq, List.getElem?_map, Option.map_map]
        rfl
  | loadStep src dst art hsrc hdst hsave ihsrc ihdst =>
    obtain ⟨idx, cls, md⟩ := src
    cases idx with
    | none => simp [SemanticClauseSearch.save_index] at hsave
    | some vecs =>
      have hart : art = ⟨some vecs, some (cls, md)⟩ := by
        simpa [SemanticClauseSearch.save_index] using hsave.symm
      subst hart
      simpa [SemanticClauseSearch.load_index] using ihsrc

/-- Claim C5 witness: the invariant at the fresh state, obtained from
the reachability theorem. -/
theorem reachable_invariant_witness :
    pairedInvariant (fun _ => [(0 : ℤ)]) (freshState ℤ) :=
  reachable_invariant (fun _ => [(0 : ℤ)]) _ ReachableVia.fresh

/-- Claim C1 (evaluation at the failing input): on an index holding 2
records at squared distances 1 and 81 from the query, `search` with
`k = 3` does not return just the 2 stored pairs — FAISS pads its result
arrays with index `-1` and distance `FLT_MAX`, the guard
`idx < len(self.metadata)` lets `-1` through, and Python's
`metadata[-1]` duplicates the last stored payload, so 3 pairs come
back. -/
theorem buggy_topk_overflow :
    SemanticClauseSearch.search (E := Unit) (pureEncode (fun _ => [(1 : ℤ)]))
      (⟨some [[0], [10]], ["a", "b"],
        [⟨"c1", "termination", "a"⟩, ⟨"c2", "liability", "b"⟩]⟩ : SearchState ℤ)
      "q" 3
      = .ok [(⟨"c1", "termination", "a"⟩, 1), (⟨"c2", "liability", "b"⟩, 81),
             (⟨"c2", "liability", "b"⟩, floatMax)] := by
  decide

/-- Claim C10: whenever `search` is called on a built index with
`k` greater than the number `n ≥ 1` of stored items, it succeeds and
returns `k` entries, of which the final `k - n` are copies of the
last-inserted payload paired with the backend's sentinel distance
`FLT_MAX` — the `-1` padding labels pass the `idx < len(self.metadata)`
guard and Python's negative indexing resolves them to the last
payload. -/
theorem search_overflow_pads_last_payload {α E : Type} [LinearOrderedCommRing α]
    (embedOne : String → List α) (s : SearchState α) (vecs : List (List α))
    (hidx : s.index = some vecs) (hlen : vecs.length = s.metadata.length)
    (hpos : 1 ≤ vecs.length) (query : String) (k : ℤ)
    (hk : (vecs.length : ℤ) < k) :
    ∃ res, SemanticClauseSearch.search (E := E) (pureEncode embedOne) s query k
        = .ok res ∧
      res.length = k.toNat ∧
      res.drop vecs.length
        = List.replicate (k.toNat - vecs.length)
            (s.metadata.getLast?.getD default, floatMax) := by
  obtain ⟨idx, cls, md⟩ := s
  have hidx' : idx = some vecs := hidx
  subst hidx'
  have hlen' : vecs.length = md.length := hlen
  have hk0 : ¬ (k ≤ 0) := by omega
  have hkn : vecs.length < k.toNat := by omega
  have hrun : SemanticClauseSearch.search (E := E) (pureEncode embedOne)
      ⟨some vecs, cls, md⟩ query k
      = gatherResults md
          (faissFlatSearch vecs (([query].map embedOne).headD []) k.toNat) := by
    simp only [SemanticClauseSearch.search, pureEncode]
    rw [if_neg hk0]
  have hperm := List.perm_insertionSort (fun a b : ℤ × α => a.2 ≤ b.2)
    (vecs.enum.map (fun pr => ((pr.1 : ℤ),
      sqDist (([query].map embedOne).headD []) pr.2)))
  have hslen : (List.insertionSort (fun a b : ℤ × α => a.2 ≤ b.2)
      (vecs.enum.map (fun pr => ((pr.1 : ℤ),
        sqDist (([query].map embedOne).headD []) pr.2)))).length = vecs.length := by
    rw [hperm.length_eq]
    simp [List.enum_length]
  have hb : ∀ p ∈ List.insertionSort (fun a b : ℤ × α => a.2 ≤ b.2)
      (vecs.enum.map (fun pr => ((pr.1 : ℤ),
        sqDist (([query].map embedOne).headD []) pr.2))),
      0 ≤ p.1 ∧ p.1 < (md.length : ℤ) := by
    intro p hp
    have := mem_sorted_scored vecs (([query].map embedOne).headD []) p hp
    omega
  have hg1 := gatherResults_bounded (E := E) md _ hb
  have hmdne : md ≠ [] := by
    intro hnil
    rw [hnil] at hlen'
    simp only [List.length_nil] at hlen'
    omega
  have hg2 := gatherResults_pad (E := E) md hmdne (k.toNat - vecs.length)
    (floatMax (α := α))
  have htake : (List.insertionSort (fun a b : ℤ × α => a.2 ≤ b.2)
      (vecs.enum.map (fun pr => ((pr.1 : ℤ),
        sqDist (([query].map embedOne).headD []) pr.2)))).take k.toNat
      = List.insertionSort (fun a b : ℤ × α => a.2 ≤ b.2)
        (vecs.enum.map (fun pr => ((pr.1 : ℤ),
          sqDist (([query].map embedOne).headD []) pr.2))) :=
    List.take_of_length_le (by omega)
  refine ⟨(List.insertionSort (fun a b : ℤ × α => a.2 ≤ b.2)
      (vecs.enum.map (fun pr => ((pr.1 : ℤ),
        sqDist (([query].map embedOne).headD []) pr.2)))).map
        (fun p => (md.getD p.1.toNat default, p.2))
      ++ List.replicate (k.toNat - vecs.length)
        (md.getLast?.getD default, floatMax), ?_, ?_, ?_⟩
  · rw [hrun]
    show gatherResults md
        ((List.insertionSort (fun a b : ℤ × α => a.2 ≤ b.2)
          (vecs.enum.map (fun pr => ((pr.1 : ℤ),
            sqDist (([query].map embedOne).headD []) pr.2)))).take k.toNat
         ++ List.replicate (k.toNat - vecs.length) ((-1 : ℤ), floatMax)) = _
    rw [htake]
    exact gatherResults_append md _ _ _ _ hg1 hg2
  · simp only [List.length_append, List.length_map, List.length_replicate, hslen]
    omega
  · have hlmap : ((List.insertionSort (fun a b : ℤ × α => a.2 ≤ b.2)
        (vecs.enum.map (fun pr => ((pr.1 : ℤ),
          sqDist (([query].map embedOne).headD []) pr.2)))).map
        (fun p => (md.getD p.1.toNat default, p.2))).length = vecs.length := by
      simp [hslen]
    rw [← hlmap, List.drop_left]

/-- Claim C10 witness: an index holding 1 item queried with `k = 2`
returns 2 entries, the second being the last payload with the sentinel
distance. -/
theorem search_overflow_pads_last_payload_witness :
    ∃ res, SemanticClauseSearch.search (E := Unit) (pureEncode (fun _ => [(0 : ℤ)]))
        (⟨some [[4]], ["t"], [⟨"c", "termination", "t"⟩]⟩ : SearchState ℤ) "q" 2
        = .ok res ∧
      res.length = 2 ∧
      res.drop 1 = List.replicate 1
        ((⟨"c", "termination", "t"⟩ : ClauseMeta), floatMax) :=
  search_overflow_pads_last_payload (fun _ => [(0 : ℤ)])
    ⟨some [[4]], ["t"], [⟨"c", "termination", "t"⟩]⟩ [[4]] rfl rfl
    (by decide) "q" 2 (by decide)
